import Mathlib

/-!
Verification of the stackful-fiber primitive in `fiber.cc`.

The switch protocol (`jmp_buf_link::begin/enter/leave/end`), the thread-local
current-context register, the bootstrap (`setup` + `makecontext`), the stack
allocator (`make_stack`, `alligned_alloc`) and the error paths are embedded
shallowly.  Control transfers (`setjmp`/`longjmp`/`setcontext`) are modelled
by explicit state passing: each operation returns the updated thread state
together with the jump target it transfers control to, and `none` models
undefined behaviour (dereferencing a null context pointer or `longjmp` on a
jmp_buf that was never written).
-/

namespace Fiber

/-- Context-link identifier (models a `jmp_buf_link*` pointer value). -/
abbrev CtxId := Nat

/-- A resume point: the code location recorded by a `setjmp` call, i.e. the
instruction immediately after the call, where a matching `longjmp` resumes. -/
abbrev ResumePoint := Nat

/-- Model of `struct jmp_buf_link { jmp_buf jmpbuf; jmp_buf_link* link; }`.
`jmpbuf = none` models a `jmp_buf` that no `setjmp` has written yet;
`link = none` models a null `link` pointer. -/
structure jmp_buf_link where
  jmpbuf : Option ResumePoint
  link : Option CtxId
deriving DecidableEq

/-- The entry functions passed to `makecontext` in `main` (via `fns`). -/
inductive EntryFn where
  | async_ping_main
  | async_pong_main
deriving DecidableEq

/-- The fields of `ucontext_t` that `setup` writes: the entry function and its
two `int` arguments installed by `makecontext`, the successor context
`uc_link`, and the stack installed through `uc_stack`. -/
structure ucontext_t where
  uc_entry : EntryFn
  uc_arg_lo : Int
  uc_arg_hi : Int
  uc_link : Option CtxId
  uc_stack_sp : Nat
  uc_stack_size : Nat
deriving DecidableEq

/-- Thread-local state of the primitive: the table of `jmp_buf_link` records
(indexed by pointer value) and the register `g_current_context`
(`none` models the null pointer it holds before `init` runs). -/
structure ThreadState where
  contexts : CtxId → jmp_buf_link
  g_current_context : Option CtxId

/-- Where an operation transfers control to: `setcontext` onto a prepared
`ucontext_t` (first activation on a fresh stack), or `longjmp` to a saved
resume point. -/
inductive JumpTarget where
  | setcontext (u : ucontext_t)
  | longjmp (rp : ResumePoint)
deriving DecidableEq

/-- Update one `jmp_buf_link` record in the thread state. -/
def updCtx (s : ThreadState) (c : CtxId) (f : jmp_buf_link → jmp_buf_link) : ThreadState :=
  { s with contexts := fun x => if x = c then f (s.contexts x) else s.contexts x }

/-- The distinguished `g_unthreaded_context` (the root context of the thread). -/
def g_unthreaded_context : CtxId := 0

/-- Model of `init()`: `g_unthreaded_context.link = nullptr; g_current_context = &g_unthreaded_context;` -/
def init (s : ThreadState) : ThreadState :=
  { contexts := fun x =>
      if x = g_unthreaded_context then { s.contexts x with link := none } else s.contexts x,
    g_current_context := some g_unthreaded_context }

/-- Model of `jmp_buf_link::begin(ucontext_t* initial_context, const void*, size_t)`:
`auto prev = std::exchange(g_current_context, this); link = prev;
if (setjmp(prev->jmpbuf) == 0) setcontext(initial_context);`
The two stack parameters are anonymous and unused in the source.
`rp` is the resume point the `setjmp` records.  If `g_current_context` is
null, `setjmp(prev->jmpbuf)` dereferences a null pointer (undefined
behaviour, modelled as `none`). -/
def begin (self : CtxId) (initial_context : ucontext_t) (stack_bottom : Nat)
    (stack_size : Nat) (rp : ResumePoint) (s : ThreadState) :
    Option (ThreadState × JumpTarget) :=
  match s.g_current_context with
  | none => none
  | some prev =>
    let s1 : ThreadState := { s with g_current_context := some self }
    let s2 := updCtx s1 self (fun l => { l with link := some prev })
    let s3 := updCtx s2 prev (fun l => { l with jmpbuf := some rp })
    some (s3, JumpTarget.setcontext initial_context)

/-- Model of `jmp_buf_link::enter()`:
`auto prev = std::exchange(g_current_context, this); link = prev;
if (setjmp(prev->jmpbuf) == 0) longjmp(jmpbuf, 1);`
`longjmp` on a `jmp_buf` never written by `setjmp` is undefined behaviour
(modelled as `none`); the `jmpbuf` read happens after the `setjmp` write. -/
def enter (self : CtxId) (rp : ResumePoint) (s : ThreadState) :
    Option (ThreadState × JumpTarget) :=
  match s.g_current_context with
  | none => none
  | some prev =>
    let s1 : ThreadState := { s with g_current_context := some self }
    let s2 := updCtx s1 self (fun l => { l with link := some prev })
    let s3 := updCtx s2 prev (fun l => { l with jmpbuf := some rp })
    match (s3.contexts self).jmpbuf with
    | none => none
    | some target => some (s3, JumpTarget.longjmp target)

/-- Model of `jmp_buf_link::leave()`:
`g_current_context = link; if (setjmp(jmpbuf) == 0) longjmp(g_current_context->jmpbuf, 1);`
A null `link` makes the subsequent `g_current_context->jmpbuf` dereference
undefined behaviour (modelled as `none`). -/
def leave (self : CtxId) (rp : ResumePoint) (s : ThreadState) :
    Option (ThreadState × JumpTarget) :=
  match (s.contexts self).link with
  | none => none
  | some l =>
    let s1 : ThreadState := { s with g_current_context := some l }
    let s2 := updCtx s1 self (fun j => { j with jmpbuf := some rp })
    match (s2.contexts l).jmpbuf with
    | none => none
    | some target => some (s2, JumpTarget.longjmp target)

/-- Model of `jmp_buf_link::end()`:
`g_current_context = link; longjmp(g_current_context->jmpbuf, 1);`
No `setjmp` is performed: the `jmpbuf` of the terminating context is not written. -/
def «end» (self : CtxId) (s : ThreadState) : Option (ThreadState × JumpTarget) :=
  match (s.contexts self).link with
  | none => none
  | some l =>
    let s1 : ThreadState := { s with g_current_context := some l }
    match (s1.contexts l).jmpbuf with
    | none => none
    | some target => some (s1, JumpTarget.longjmp target)

/-- Common shape of the state written by `begin`/`enter` before transferring:
current register set to `self`, `self.link` set to `prev`, `prev.jmpbuf`
saved. -/
def switchInState (self prev : CtxId) (rp : ResumePoint) (s : ThreadState) : ThreadState :=
  updCtx (updCtx { s with g_current_context := some self }
      self (fun l => { l with link := some prev }))
    prev (fun l => { l with jmpbuf := some rp })

theorem switchInState_current (self prev : CtxId) (rp : ResumePoint) (s : ThreadState) :
    (switchInState self prev rp s).g_current_context = some self := rfl

theorem switchInState_link (self prev : CtxId) (rp : ResumePoint) (s : ThreadState) :
    ((switchInState self prev rp s).contexts self).link = some prev := by
  by_cases h : self = prev <;> simp [switchInState, updCtx, h]

theorem begin_eq_switchInState (self prev : CtxId) (u : ucontext_t) (sb ss : Nat)
    (rp : ResumePoint) (s : ThreadState) (hcur : s.g_current_context = some prev) :
    begin self u sb ss rp s = some (switchInState self prev rp s, JumpTarget.setcontext u) := by
  simp [begin, hcur, switchInState]

theorem enter_eq_of_current (self prev : CtxId) (rp : ResumePoint) (s : ThreadState)
    (hcur : s.g_current_context = some prev) :
    enter self rp s =
      match ((switchInState self prev rp s).contexts self).jmpbuf with
      | none => none
      | some target => some (switchInState self prev rp s, JumpTarget.longjmp target) := by
  simp [enter, hcur, switchInState]

/-- Claim C1: every `begin` or `enter` on a context `c` records the previously
current context as `c.link` and makes `c` current: whenever the call succeeds
(returning state `s'`), `s'.g_current_context = some c` and
`(s'.contexts c).link` equals the context that was current at the call. -/
theorem C1_begin_enter_record_link_and_become_current (c prev : CtxId) (u : ucontext_t)
    (sb ss : Nat) (rp : ResumePoint) (s : ThreadState)
    (hcur : s.g_current_context = some prev) :
    (∀ s' t, begin c u sb ss rp s = some (s', t) →
      s'.g_current_context = some c ∧ (s'.contexts c).link = some prev) ∧
    (∀ s' t, enter c rp s = some (s', t) →
      s'.g_current_context = some c ∧ (s'.contexts c).link = some prev) := by
  constructor
  · intro s' t h
    rw [begin_eq_switchInState c prev u sb ss rp s hcur] at h
    simp only [Option.some.injEq, Prod.mk.injEq] at h
    obtain ⟨rfl, -⟩ := h
    exact ⟨switchInState_current c prev rp s, switchInState_link c prev rp s⟩
  · intro s' t h
    rw [enter_eq_of_current c prev rp s hcur] at h
    cases htg : ((switchInState c prev rp s).contexts c).jmpbuf with
    | none => rw [htg] at h; exact Option.noConfusion h
    | some target =>
      rw [htg] at h
      simp only [Option.some.injEq, Prod.mk.injEq] at h
      obtain ⟨rfl, -⟩ := h
      exact ⟨switchInState_current c prev rp s, switchInState_link c prev rp s⟩

/-- A concrete thread state used by witnesses: context 1 suspended with a
saved resume point, context 0 the root, context 1 currently running. -/
def sWit : ThreadState :=
  { contexts := fun x =>
      if x = 1 then { jmpbuf := some 9, link := some 0 }
      else if x = 0 then { jmpbuf := some 5, link := none }
      else { jmpbuf := none, link := none },
    g_current_context := some 0 }

theorem C1_begin_enter_record_link_and_become_current_witness :
    (∀ s' t, begin 2 (ucontext_t.mk EntryFn.async_ping_main 0 0 none 0 0) 0 4096 7 sWit =
        some (s', t) →
      s'.g_current_context = some 2 ∧ (s'.contexts 2).link = some 0) ∧
    (∀ s' t, enter 1 7 sWit = some (s', t) →
      s'.g_current_context = some 1 ∧ (s'.contexts 1).link = some 0) := by
  constructor
  · exact (C1_begin_enter_record_link_and_become_current 2 0
      (ucontext_t.mk EntryFn.async_ping_main 0 0 none 0 0) 0 4096 7 sWit rfl).1
  · exact (C1_begin_enter_record_link_and_become_current 1 0
      (ucontext_t.mk EntryFn.async_ping_main 0 0 none 0 0) 0 4096 7 sWit rfl).2

/-- State written by `leave` before transferring: current register set to the
back-reference `l`, `self.jmpbuf` saved. -/
def leaveState (self l : CtxId) (rp : ResumePoint) (s : ThreadState) : ThreadState :=
  updCtx { s with g_current_context := some l } self (fun j => { j with jmpbuf := some rp })

theorem leave_eq_of_link (c l : CtxId) (rp : ResumePoint) (s : ThreadState)
    (hl : (s.contexts c).link = some l) :
    leave c rp s =
      match ((leaveState c l rp s).contexts l).jmpbuf with
      | none => none
      | some target => some (leaveState c l rp s, JumpTarget.longjmp target) := by
  simp [leave, hl, leaveState]

/-- State written by `end` before transferring: only the current register
moves to the back-reference `l`; no `jmp_buf_link` record changes. -/
def endState (l : CtxId) (s : ThreadState) : ThreadState :=
  { s with g_current_context := some l }

theorem end_eq_of_link (c l : CtxId) (s : ThreadState)
    (hl : (s.contexts c).link = some l) :
    «end» c s =
      match ((endState l s).contexts l).jmpbuf with
      | none => none
      | some target => some (endState l s, JumpTarget.longjmp target) := by
  simp [«end», hl, endState]

theorem begin_success_current (c : CtxId) (u : ucontext_t) (sb ss : Nat) (rp : ResumePoint)
    (s s' : ThreadState) (t : JumpTarget) (h : begin c u sb ss rp s = some (s', t)) :
    s'.g_current_context = some c := by
  cases hc : s.g_current_context with
  | none => simp [begin, hc] at h
  | some prev =>
    rw [begin_eq_switchInState c prev u sb ss rp s hc] at h
    simp only [Option.some.injEq, Prod.mk.injEq] at h
    obtain ⟨rfl, -⟩ := h
    rfl

theorem enter_success_current (c : CtxId) (rp : ResumePoint) (s s' : ThreadState)
    (t : JumpTarget) (h : enter c rp s = some (s', t)) :
    s'.g_current_context = some c := by
  cases hc : s.g_current_context with
  | none => simp [enter, hc] at h
  | some prev =>
    rw [enter_eq_of_current c prev rp s hc] at h
    cases htg : ((switchInState c prev rp s).contexts c).jmpbuf with
    | none => rw [htg] at h; exact Option.noConfusion h
    | some target =>
      rw [htg] at h
      simp only [Option.some.injEq, Prod.mk.injEq] at h
      obtain ⟨rfl, -⟩ := h
      rfl

theorem leave_success_current (c : CtxId) (rp : ResumePoint) (s s' : ThreadState)
    (t : JumpTarget) (h : leave c rp s = some (s', t)) :
    ∃ l, s'.g_current_context = some l := by
  cases hl : (s.contexts c).link with
  | none => simp [leave, hl] at h
  | some l =>
    rw [leave_eq_of_link c l rp s hl] at h
    cases htg : ((leaveState c l rp s).contexts l).jmpbuf with
    | none => rw [htg] at h; exact Option.noConfusion h
    | some target =>
      rw [htg] at h
      simp only [Option.some.injEq, Prod.mk.injEq] at h
      obtain ⟨rfl, -⟩ := h
      exact ⟨l, rfl⟩

theorem end_success_current (c : CtxId) (s s' : ThreadState) (t : JumpTarget)
    (h : «end» c s = some (s', t)) : ∃ l, s'.g_current_context = some l := by
  cases hl : (s.contexts c).link with
  | none => simp [«end», hl] at h
  | some l =>
    rw [end_eq_of_link c l s hl] at h
    cases htg : ((endState l s).contexts l).jmpbuf with
    | none => rw [htg] at h; exact Option.noConfusion h
    | some target =>
      rw [htg] at h
      simp only [Option.some.injEq, Prod.mk.injEq] at h
      obtain ⟨rfl, -⟩ := h
      exact ⟨l, rfl⟩

/-- States reachable after `init` through the switch protocol.  The step
cases enumerate exactly the five operations of the source that write
`g_current_context`: `init`, `begin`, `enter`, `leave`, `end` (no other
function of the primitive mentions the register). -/
inductive Reachable : ThreadState → Prop where
  | init_step (s : ThreadState) : Reachable (init s)
  | begin_step {s s' : ThreadState} {t : JumpTarget} (c : CtxId) (u : ucontext_t)
      (sb ss : Nat) (rp : ResumePoint) :
      Reachable s → begin c u sb ss rp s = some (s', t) → Reachable s'
  | enter_step {s s' : ThreadState} {t : JumpTarget} (c : CtxId) (rp : ResumePoint) :
      Reachable s → enter c rp s = some (s', t) → Reachable s'
  | leave_step {s s' : ThreadState} {t : JumpTarget} (c : CtxId) (rp : ResumePoint) :
      Reachable s → leave c rp s = some (s', t) → Reachable s'
  | end_step {s s' : ThreadState} {t : JumpTarget} (c : CtxId) :
      Reachable s → «end» c s = some (s', t) → Reachable s'

theorem existsUnique_current_of_some (s : ThreadState) (v : CtxId)
    (h : s.g_current_context = some v) :
    ∃! c : CtxId, s.g_current_context = some c :=
  ⟨v, h, fun y hy => by rw [h] at hy; exact (Option.some.inj hy).symm⟩

/-- Claim C2: in every state reachable after `init`, the current-context
register names exactly one context; the step relation `Reachable` is built
from exactly the operations `init`/`begin`/`enter`/`leave`/`end`, which are
the only writers of `g_current_context` in the source. -/
theorem C2_exactly_one_current (s : ThreadState) (h : Reachable s) :
    ∃! c : CtxId, s.g_current_context = some c := by
  induction h with
  | init_step s0 => exact existsUnique_current_of_some _ g_unthreaded_context rfl
  | begin_step c u sb ss rp hr hstep ih =>
    exact existsUnique_current_of_some _ c (begin_success_current c u sb ss rp _ _ _ hstep)
  | enter_step c rp hr hstep ih =>
    exact existsUnique_current_of_some _ c (enter_success_current c rp _ _ _ hstep)
  | leave_step c rp hr hstep ih =>
    obtain ⟨l, hl⟩ := leave_success_current c rp _ _ _ hstep
    exact existsUnique_current_of_some _ l hl
  | end_step c hr hstep ih =>
    obtain ⟨l, hl⟩ := end_success_current c _ _ _ hstep
    exact existsUnique_current_of_some _ l hl

/-- The empty thread state (all records zeroed, register null), as at thread
start before `init`. -/
def sEmpty : ThreadState :=
  { contexts := fun _ => { jmpbuf := none, link := none }, g_current_context := none }

theorem C2_exactly_one_current_witness :
    ∃! c : CtxId, (init sEmpty).g_current_context = some c :=
  C2_exactly_one_current (init sEmpty) (Reachable.init_step sEmpty)

/-- Claim C3: `leave` on a RUNNING context `c` makes the back-referenced
context of `c` current, saves the resume point of `c` (the instruction
after the `leave` call) into `c.jmpbuf`, and transfers control to the saved
state of the back-referenced context; and any later `enter` on `c` — while
the saved state of `c` is still that of the `leave` and `c` is not running —
transfers control exactly to that saved resume point, i.e. resumes at the
instruction following the matching `leave`. -/
theorem C3_leave_saves_and_enter_resumes_after_it (c : CtxId) (rp : ResumePoint)
    (s s' : ThreadState) (t : JumpTarget) (h : leave c rp s = some (s', t)) :
    s'.g_current_context = (s.contexts c).link ∧
    (s'.contexts c).jmpbuf = some rp ∧
    (∃ l target, (s.contexts c).link = some l ∧ (s'.contexts l).jmpbuf = some target ∧
      t = JumpTarget.longjmp target) ∧
    (∀ (s2 s3 : ThreadState) (rp2 : ResumePoint) (t3 : JumpTarget),
      (s2.contexts c).jmpbuf = some rp → s2.g_current_context ≠ some c →
      enter c rp2 s2 = some (s3, t3) → t3 = JumpTarget.longjmp rp) := by
  cases hl : (s.contexts c).link with
  | none => simp [leave, hl] at h
  | some l =>
    rw [leave_eq_of_link c l rp s hl] at h
    cases htg : ((leaveState c l rp s).contexts l).jmpbuf with
    | none => rw [htg] at h; exact Option.noConfusion h
    | some target =>
      rw [htg] at h
      simp only [Option.some.injEq, Prod.mk.injEq] at h
      obtain ⟨rfl, rfl⟩ := h
      refine ⟨rfl, ?_, ⟨l, target, rfl, htg, rfl⟩, ?_⟩
      · simp [leaveState, updCtx]
      · intro s2 s3 rp2 t3 hjb hne henter
        cases hc2 : s2.g_current_context with
        | none => simp [enter, hc2] at henter
        | some prev2 =>
          have hcc : c ≠ prev2 := by
            intro hcc
            exact hne (by rw [hc2, hcc])
          rw [enter_eq_of_current c prev2 rp2 s2 hc2] at henter
          have hjb3 : ((switchInState c prev2 rp2 s2).contexts c).jmpbuf = some rp := by
            simp [switchInState, updCtx, hcc, hjb]
          rw [hjb3] at henter
          simp only [Option.some.injEq, Prod.mk.injEq] at henter
          exact henter.2.symm

def leaveWitState : ThreadState := leaveState 1 0 7 sWit

theorem C3_leave_saves_and_enter_resumes_after_it_witness :
    leave 1 7 sWit = some (leaveWitState, JumpTarget.longjmp 5) ∧
    leaveWitState.g_current_context = (sWit.contexts 1).link ∧
    (leaveWitState.contexts 1).jmpbuf = some 7 :=
  ⟨rfl,
    (C3_leave_saves_and_enter_resumes_after_it 1 7 sWit leaveWitState
      (JumpTarget.longjmp 5) rfl).1,
    (C3_leave_saves_and_enter_resumes_after_it 1 7 sWit leaveWitState
      (JumpTarget.longjmp 5) rfl).2.1⟩

/-- Claim C4: `end` transfers control to the saved state of the
back-referenced context without writing any record: the whole context table
— in particular the `jmpbuf` snapshot of the terminating context — is left
unchanged, so the transfer is one-way; by contrast `leave` always saves the
resume point of the leaving context into its `jmpbuf`, making it
resumable. -/
theorem C4_end_is_one_way (c : CtxId) (s s' : ThreadState) (t : JumpTarget)
    (h : «end» c s = some (s', t)) :
    s'.contexts = s.contexts ∧
    (s'.contexts c).jmpbuf = (s.contexts c).jmpbuf ∧
    s'.g_current_context = (s.contexts c).link ∧
    (∃ l target, (s.contexts c).link = some l ∧ (s.contexts l).jmpbuf = some target ∧
      t = JumpTarget.longjmp target) ∧
    (∀ (rp : ResumePoint) (s2 s3 : ThreadState) (t2 : JumpTarget),
      leave c rp s2 = some (s3, t2) → (s3.contexts c).jmpbuf = some rp) := by
  cases hl : (s.contexts c).link with
  | none => simp [«end», hl] at h
  | some l =>
    rw [end_eq_of_link c l s hl] at h
    cases htg : ((endState l s).contexts l).jmpbuf with
    | none => rw [htg] at h; exact Option.noConfusion h
    | some target =>
      rw [htg] at h
      simp only [Option.some.injEq, Prod.mk.injEq] at h
      obtain ⟨rfl, rfl⟩ := h
      refine ⟨rfl, rfl, rfl, ⟨l, target, rfl, htg, rfl⟩, ?_⟩
      intro rp s2 s3 t2 hleave
      cases hl2 : (s2.contexts c).link with
      | none => simp [leave, hl2] at hleave
      | some l2 =>
        rw [leave_eq_of_link c l2 rp s2 hl2] at hleave
        cases htg2 : ((leaveState c l2 rp s2).contexts l2).jmpbuf with
        | none => rw [htg2] at hleave; exact Option.noConfusion hleave
        | some target2 =>
          rw [htg2] at hleave
          simp only [Option.some.injEq, Prod.mk.injEq] at hleave
          obtain ⟨rfl, -⟩ := hleave
          simp [leaveState, updCtx]

def endWitState : ThreadState := endState 0 sWit

theorem C4_end_is_one_way_witness :
    «end» 1 sWit = some (endWitState, JumpTarget.longjmp 5) ∧
    endWitState.contexts = sWit.contexts ∧
    (endWitState.contexts 1).jmpbuf = (sWit.contexts 1).jmpbuf :=
  ⟨rfl, (C4_end_is_one_way 1 sWit endWitState (JumpTarget.longjmp 5) rfl).1,
    (C4_end_is_one_way 1 sWit endWitState (JumpTarget.longjmp 5) rfl).2.1⟩

/-- Claim C10: the effect of `begin` is independent of its `stack_bottom` and
`stack_size` arguments (they are anonymous and unused in the source): two
calls differing only in those arguments produce identical results, in
particular identical `link` fields and current-context registers. -/
theorem C10_begin_independent_of_stack_arguments (c : CtxId) (u : ucontext_t)
    (sb1 ss1 sb2 ss2 : Nat) (rp : ResumePoint) (s : ThreadState) :
    begin c u sb1 ss1 rp s = begin c u sb2 ss2 rp s ∧
    (begin c u sb1 ss1 rp s).map
        (fun r => (r.1.g_current_context, (r.1.contexts c).link)) =
      (begin c u sb2 ss2 rp s).map
        (fun r => (r.1.g_current_context, (r.1.contexts c).link)) :=
  ⟨rfl, rfl⟩

def two31 : Nat := 2147483648

def two32 : Nat := 4294967296

def two64 : Nat := 18446744073709551616

/-- Model of the C++20 conversion of a `uint64_t` value to `int` (32-bit
twos-complement, modular): the result is the representative of `q` modulo 2^32 in
`[-2^31, 2^31)`.  Models `int(q)` in `setup`. -/
def int_of_uint64 (q : Nat) : Int :=
  if q % two32 < two31 then ((q % two32 : Nat) : Int)
  else ((q % two32 : Nat) : Int) - (two32 : Int)

/-- Conversion of an `int` value to `uint32_t` (modular reduction). -/
def uint32_of_int (i : Int) : Nat := (i % (two32 : Int)).toNat

/-- Conversion of an `int` value to `uint64_t` (modular reduction, which
sign-extends negative values). -/
def uint64_of_int (i : Int) : Nat := (i % (two64 : Int)).toNat

/-- The reassembly `uint64_t(uint32_t(lo)) | uint64_t(hi) << 32` performed
by the trampolines `async_ping_main`/`async_pong_main` (the shift is
`uint64_t` arithmetic, hence truncated modulo 2^64). -/
def trampoline_reassemble (lo hi : Int) : Nat :=
  uint32_of_int lo ||| (uint64_of_int hi <<< 32) % two64

/-- Model of `async_ping_main(int lo, int hi)`: reassembles the split
pointer and dispatches to `async_ping` on the resulting `jmp_buf_link*`. -/
def async_ping_main (lo hi : Int) : CtxId := trampoline_reassemble lo hi

/-- Model of `async_pong_main(int lo, int hi)`: reassembles the split
pointer and dispatches to `async_pong` on the resulting `jmp_buf_link*`. -/
def async_pong_main (lo hi : Int) : CtxId := trampoline_reassemble lo hi

/-- Preparation of the initial context performed by `setup`:
`q = uint64_t(ctx); makecontext(&initial_context, f, 2, int(q), int(q >> 32))`
with `uc_stack = {stack, stack_size}` and `uc_link = nullptr`. -/
def setup_ucontext (ctx_ptr stack stack_size : Nat) (f : EntryFn) : ucontext_t :=
  { uc_entry := f,
    uc_arg_lo := int_of_uint64 ctx_ptr,
    uc_arg_hi := int_of_uint64 (ctx_ptr >>> 32),
    uc_link := none,
    uc_stack_sp := stack,
    uc_stack_size := stack_size }

theorem uint32_of_int_int_of_uint64 (q : Nat) :
    uint32_of_int (int_of_uint64 q) = q % two32 := by
  unfold uint32_of_int int_of_uint64
  split <;> simp only [two31, two32] at * <;> omega

theorem uint64_of_int_int_of_uint64_shifted (b : Nat) :
    (uint64_of_int (int_of_uint64 b) <<< 32) % two64 = b % two32 * two32 := by
  unfold uint64_of_int int_of_uint64
  have h32 : (2 : Nat) ^ 32 = 4294967296 := by norm_num
  rw [Nat.shiftLeft_eq, h32]
  split <;> simp only [two31, two32, two64] at * <;> omega

theorem lor_low_high (n a b : Nat) (ha : a < 2 ^ n) :
    a ||| b * 2 ^ n = b * 2 ^ n + a := by
  have hmod : (a ||| b * 2 ^ n) % 2 ^ n = a := by
    apply Nat.eq_of_testBit_eq
    intro i
    rcases Nat.lt_or_ge i n with hi | hi
    · simp [Nat.testBit_mod_two_pow, hi, Nat.testBit_or, ← Nat.shiftLeft_eq,
        Nat.testBit_shiftLeft, Nat.not_le.mpr hi]
    · have hfalse : a.testBit i = false :=
        Nat.testBit_lt_two_pow (Nat.lt_of_lt_of_le ha (Nat.pow_le_pow_right (by norm_num) hi))
      simp [Nat.testBit_mod_two_pow, Nat.not_lt.mpr hi, hfalse]
  have hdiv : (a ||| b * 2 ^ n) >>> n = b := by
    apply Nat.eq_of_testBit_eq
    intro i
    have hfalse : a.testBit (n + i) = false :=
      Nat.testBit_lt_two_pow
        (Nat.lt_of_lt_of_le ha (Nat.pow_le_pow_right (by norm_num) (Nat.le_add_right n i)))
    simp [Nat.testBit_shiftRight, Nat.testBit_or, ← Nat.shiftLeft_eq,
      Nat.testBit_shiftLeft, hfalse, Nat.le_add_right]
  have hsplit := Nat.div_add_mod (a ||| b * 2 ^ n) (2 ^ n)
  rw [hmod] at hsplit
  rw [Nat.shiftRight_eq_div_pow] at hdiv
  rw [hdiv] at hsplit
  rw [← hsplit, Nat.mul_comm]

/-- Claim C6: splitting a 64-bit pointer value into the two `int` halves
passed through `makecontext` (as `setup` does) and reassembling them in the
trampoline as `uint64_t(uint32_t(lo)) | uint64_t(hi) << 32` returns exactly
the original value, for every value representable in 64 bits. -/
theorem C6_pointer_split_roundtrip (q : Nat) (h : q < two64) :
    trampoline_reassemble (int_of_uint64 q) (int_of_uint64 (q >>> 32)) = q := by
  unfold trampoline_reassemble
  rw [uint32_of_int_int_of_uint64, uint64_of_int_int_of_uint64_shifted]
  have h1 : q >>> 32 % two32 * two32 = (q >>> 32) * 2 ^ 32 := by
    rw [Nat.shiftRight_eq_div_pow]
    simp only [two32, two64] at *
    have : q / 2 ^ 32 < 4294967296 := by omega
    rw [Nat.mod_eq_of_lt this]
    norm_num
  rw [h1, lor_low_high 32 (q % two32) (q >>> 32) (by simp only [two32]; omega)]
  rw [Nat.shiftRight_eq_div_pow]
  simp only [two32, two64] at *
  omega

theorem C6_pointer_split_roundtrip_witness :
    18446744073709551615 < two64 ∧
    trampoline_reassemble (int_of_uint64 18446744073709551615)
        (int_of_uint64 (18446744073709551615 >>> 32)) = 18446744073709551615 :=
  ⟨by decide, C6_pointer_split_roundtrip 18446744073709551615 (by decide)⟩

/-- What happens when a `makecontext`-installed entry function returns, per
the documented `ucontext` semantics: if `uc_link` is null the thread exits;
otherwise the context pointed to by `uc_link` is resumed.  `invoke_end` is
the behaviour the specification describes (a bootstrap wrapper calling
`jmp_buf_link::end()`); no code path of `fiber.cc` produces it. -/
inductive ReturnBehavior where
  | invoke_end
  | resume_uc (l : CtxId)
  | thread_exit
deriving DecidableEq

def on_entry_return (u : ucontext_t) : ReturnBehavior :=
  match u.uc_link with
  | none => ReturnBehavior.thread_exit
  | some l => ReturnBehavior.resume_uc l

/-- Whether the body of a fiber entry function is still looping or has
returned. -/
inductive BodyStatus where
  | running
  | returned
deriving DecidableEq

/-- Model of `async_ping`: `while (true) { cout << "ping"; link->leave(); }` — the
state and output after `n` loop iterations.  The loop has no exit, so the
`returned` branch is never produced. -/
def async_ping_iters (n : Nat) : BodyStatus × List String :=
  match n with
  | 0 => (BodyStatus.running, [])
  | k + 1 =>
    match async_ping_iters k with
    | (BodyStatus.running, out) => (BodyStatus.running, out ++ ["ping"])
    | (BodyStatus.returned, out) => (BodyStatus.returned, out)

/-- Claim C5 counterexample: the claim says that when the entry
function of a fiber returns, `end()` is invoked by the bootstrap wrapper, transferring
control to the back-referenced context.  On the concrete bootstrap that
`setup` actually prepares (here for the context at address 7 with a 16 KiB
stack and the ping entry), a return from the entry function exits the
thread (`uc_link` is null): no `end()` invocation happens. -/
theorem C5_counterexample :
    on_entry_return (setup_ucontext 7 100 16384 EntryFn.async_ping_main) =
        ReturnBehavior.thread_exit ∧
    ReturnBehavior.thread_exit ≠ ReturnBehavior.invoke_end := by
  constructor
  · rfl
  · intro h
    exact ReturnBehavior.noConfusion h

/-- Claim C5 as amended: `setup` installs the entry function directly via
`makecontext` with `uc_link = nullptr`, so no bootstrap wrapper invokes
`end()` — if an entry function returned, the thread would exit instead; and
the demo entry bodies never return (after any number of iterations
`async_ping` is still running). -/
theorem C5_amended_no_end_on_return (ctx_ptr stack stack_size : Nat) (f : EntryFn) (n : Nat) :
    (setup_ucontext ctx_ptr stack stack_size f).uc_link = none ∧
    on_entry_return (setup_ucontext ctx_ptr stack stack_size f) =
      ReturnBehavior.thread_exit ∧
    (async_ping_iters n).1 = BodyStatus.running := by
  refine ⟨rfl, rfl, ?_⟩
  induction n with
  | zero => rfl
  | succ k ih =>
    unfold async_ping_iters
    cases hk : async_ping_iters k with
    | mk st out =>
      rw [hk] at ih
      cases st with
      | running => rfl
      | returned => exact BodyStatus.noConfusion ih

/-- The C++ error values thrown by the allocation helpers. -/
inductive CppError where
  | bad_alloc
  | runtime_error (msg : String)
deriving DecidableEq

/-- The possible results of `posix_memalign` (its only return codes are `0`,
`EINVAL` — alignment not a power of two or not a multiple of
`sizeof(void*)` — and `ENOMEM`). -/
inductive PosixMemalignResult where
  | ok (ptr : Nat)
  | enomem
  | einval
deriving DecidableEq

/-- Model of `alligned_alloc(size, align)`: calls `posix_memalign` and maps `ENOMEM`
to `std::bad_alloc`, `EINVAL` to a `std::runtime_error` describing the
invalid alignment, and success to the allocated pointer.  Here `r` is the
response of the platform allocator to the request. -/
def alligned_alloc (size align : Nat) (r : PosixMemalignResult) : Except CppError Nat :=
  match r with
  | PosixMemalignResult.enomem => Except.error CppError.bad_alloc
  | PosixMemalignResult.einval =>
      Except.error (CppError.runtime_error "Invalid alignment")
  | PosixMemalignResult.ok p => Except.ok p

/-- The alignment `make_stack` hard-codes: `const size_t alignment = 16;`
(the x86-64 ABI requirement). -/
def stack_alignment : Nat := 16

/-- Model of `make_stack(stack_size)`: calls `aligned_alloc(16, stack_size)` and
throws `std::bad_alloc` when it returns null, otherwise returns the stack.
`mem` is the pointer the platform allocator returned (`none` = null). -/
def make_stack (stack_size : Nat) (mem : Option Nat) : Except CppError Nat :=
  match mem with
  | none => Except.error CppError.bad_alloc
  | some p => Except.ok p

/-- Claim C7: allocation failure is reported as out-of-memory
(`std::bad_alloc`, from both `alligned_alloc` on `ENOMEM` and `make_stack`
on a null return), an unsupported alignment is reported as an
invalid-argument condition (`std::runtime_error` from `alligned_alloc` on
`EINVAL`) distinct from the out-of-memory condition, and in every error
case no pointer is handed out, so there is no stack memory to leak. -/
theorem C7_allocation_error_taxonomy (size align stack_size : Nat) :
    alligned_alloc size align PosixMemalignResult.enomem =
        Except.error CppError.bad_alloc ∧
    alligned_alloc size align PosixMemalignResult.einval =
        Except.error (CppError.runtime_error "Invalid alignment") ∧
    CppError.runtime_error "Invalid alignment" ≠ CppError.bad_alloc ∧
    make_stack stack_size none = Except.error CppError.bad_alloc ∧
    (∀ p : Nat, alligned_alloc size align PosixMemalignResult.einval ≠ Except.ok p) ∧
    (∀ p : Nat, make_stack stack_size none ≠ Except.ok p) := by
  refine ⟨rfl, rfl, fun h => CppError.noConfusion h, rfl, ?_, ?_⟩
  · intro p h
    exact Except.noConfusion h
  · intro p h
    exact Except.noConfusion h

/-- The `errno` values distinguished by `throw_system_error_on`. -/
inductive Errno where
  | EBADF
  | ENOTSOCK
  | other
deriving DecidableEq

/-- How a call to `throw_system_error_on` finishes: normal return, a direct
`abort()`, or throwing `std::system_error`. -/
inductive CallOutcome where
  | ret
  | abort_called
  | threw (en : Errno) (what : String)
deriving DecidableEq

/-- Model of `throw_system_error_on(condition, what_arg)`: on a true condition,
`abort()` when `errno` is `EBADF` or `ENOTSOCK`, otherwise throw
`std::system_error(errno, ..., what_arg)`; on a false condition, return. -/
def throw_system_error_on (condition : Bool) (en : Errno) (what : String) : CallOutcome :=
  if condition then
    if en = Errno.EBADF ∨ en = Errno.ENOTSOCK then CallOutcome.abort_called
    else CallOutcome.threw en what
  else CallOutcome.ret

/-- Check performed by `setup` on the initial context query:
`throw_system_error_on(r == -1, "getcontext")` where `r = getcontext(...)`. -/
def setup_getcontext_check (r : Int) (en : Errno) : CallOutcome :=
  throw_system_error_on (r == -1) en "getcontext"

/-- The process-level fate of a call outcome.  `fiber.cc` contains no
`try`/`catch`, so an exception thrown out of `setup` propagates out of
`main`, where the C++ runtime calls `std::terminate`, which aborts the
process. -/
inductive ProcessFate where
  | continues
  | aborted
deriving DecidableEq

def process_fate (o : CallOutcome) : ProcessFate :=
  match o with
  | CallOutcome.ret => ProcessFate.continues
  | CallOutcome.abort_called => ProcessFate.aborted
  | CallOutcome.threw _ _ => ProcessFate.aborted

/-- Claim C8: when the initial context-query call fails (`getcontext`
returns `-1`), the check in `setup` never returns normally — whatever
`errno` holds, it either calls `abort()` directly or throws an exception
that no handler in the program catches, so the process aborts rather than
continuing. -/
theorem C8_os_failure_aborts (en : Errno) :
    setup_getcontext_check (-1) en ≠ CallOutcome.ret ∧
    process_fate (setup_getcontext_check (-1) en) = ProcessFate.aborted := by
  cases en <;> exact ⟨fun h => CallOutcome.noConfusion h, rfl⟩

/-- Claim C9: `make_stack` requests alignment 16, so whenever the platform
allocator honours its contract and hands back a 16-byte-aligned block, the
stack `make_stack` returns is that block and its address is a multiple of
16. -/
theorem C9_stack_aligned (stack_size p : Nat) (hp : p % stack_alignment = 0) :
    stack_alignment = 16 ∧
    make_stack stack_size (some p) = Except.ok p ∧
    p % 16 = 0 :=
  ⟨rfl, rfl, hp⟩

theorem C9_stack_aligned_witness :
    32 % stack_alignment = 0 ∧
    stack_alignment = 16 ∧
    make_stack 16384 (some 32) = Except.ok 32 ∧
    32 % 16 = 0 :=
  ⟨by decide, (C9_stack_aligned 16384 32 (by decide)).1,
    (C9_stack_aligned 16384 32 (by decide)).2.1,
    (C9_stack_aligned 16384 32 (by decide)).2.2⟩

end Fiber
